import Mathlib

/-!  Shallow embedding of the single-instrument limit order book
(orderbook.py): the Order record, the OrderBook state with its two sorted
sequences and its two id sub-dictionaries, sorted insertion, head peek,
head removal, id lookup, and the market-order matching loop.  Prices and
quantities are modelled as rationals, timestamps and ids as naturals;
raised exceptions become explicit error values paired with the state the
operation leaves behind. -/

/-- Exception-style outcomes of the book operations. -/
inductive BookError where
  /-- models the MissingOrder exception raised when a market order meets an
  empty opposing side -/
  | missingOrder (msg : String)
  /-- models a KeyError carrying an offending order id -/
  | keyError (oid : Nat)
  /-- models an IndexError from indexing the head of an empty sequence -/
  | indexError
  /-- models the AttributeError from reading the qty field of the empty (None)
  result of pop inside the matching loop -/
  | attributeError
  /-- sentinel of the fuelled loop; shown below never to be returned for the
  fuel the matching entry point supplies -/
  | fuelExhausted
deriving DecidableEq, Repr

inductive OrderSide where
  | BUY
  | SELL
deriving DecidableEq, Repr

inductive OrderType where
  | MARKET
  | LIMIT
deriving DecidableEq, Repr

/-- one order: price, quantity, arrival time, side, type and unique id -/
structure Order where
  price : Rat
  qty : Rat
  time : Nat
  side : OrderSide
  type_ : OrderType
  id : Nat
deriving DecidableEq, Repr

/-- a Python dict with Nat keys and Order values, kept as an
insertion-ordered association list with unique keys -/
abbrev Dic := List (Nat × Order)

/-- dict lookup -/
def dicGet (d : Dic) (k : Nat) : Option Order :=
  (d.find? (fun p => p.1 == k)).map Prod.snd

/-- dict membership test (the Python `key in mapping`) -/
def dicContains (d : Dic) (k : Nat) : Bool :=
  d.any (fun p => p.1 == k)

/-- dict write: update the existing entry in place, else append a new one -/
def dicSet (d : Dic) (k : Nat) (v : Order) : Dic :=
  if dicContains d k then d.map (fun p => if p.1 == k then (k, v) else p)
  else d ++ [(k, v)]

/-- dict delete of a present key -/
def dicDel (d : Dic) (k : Nat) : Dic :=
  d.filter (fun p => p.1 != k)

/-- the OrderBook state: ask and bid sequences plus the two id sub-dictionaries
that the chained hash_map view spans -/
structure OrderBook where
  ask : List Order
  bid : List Order
  buy_dic : Dic
  sell_dic : Dic
deriving DecidableEq, Repr

def OrderBook.empty : OrderBook :=
  { ask := [], bid := [], buy_dic := [], sell_dic := [] }

/-- lookup through the unified hash_map view (ChainMap getitem): the buy-side
dict is consulted first, then the sell-side one -/
def hmGet (bk : OrderBook) (k : Nat) : Option Order :=
  match dicGet bk.buy_dic k with
  | some o => some o
  | none => dicGet bk.sell_dic k

/-- write through the unified hash_map view (OrderBookDic setitem): update the
first sub-dict already holding the key, else insert into the buy-side dict -/
def hmSet (bk : OrderBook) (k : Nat) (v : Order) : OrderBook :=
  if dicContains bk.buy_dic k then { bk with buy_dic := dicSet bk.buy_dic k v }
  else if dicContains bk.sell_dic k then { bk with sell_dic := dicSet bk.sell_dic k v }
  else { bk with buy_dic := dicSet bk.buy_dic k v }

/-- delete through the unified hash_map view (OrderBookDic delitem): delete
from the first sub-dict holding the key; none models the KeyError raised when
neither holds it -/
def hmDel (bk : OrderBook) (k : Nat) : Option OrderBook :=
  if dicContains bk.buy_dic k then some { bk with buy_dic := dicDel bk.buy_dic k }
  else if dicContains bk.sell_dic k then some { bk with sell_dic := dicDel bk.sell_dic k }
  else none

/-- sort key of the bid sequence: lexicographic (negated price, time), which is
descending price then ascending time -/
def bidKey (o : Order) : Rat ×ₗ Nat := toLex (-o.price, o.time)

/-- sort key of the ask sequence: lexicographic (price, time) -/
def askKey (o : Order) : Rat ×ₗ Nat := toLex (o.price, o.time)

/-- bisect.insort_left on a key-sorted list: the new element is inserted
before the first resting element whose key is not strictly smaller -/
def insortLeft (key : Order → Rat ×ₗ Nat) (x : Order) : List Order → List Order
  | [] => [x]
  | y :: ys => if key y < key x then y :: insortLeft key x ys else x :: y :: ys

/-- sorted insertion of a single order: into bid plus the buy-side dict for a
BUY, into ask plus the sell-side dict for a SELL -/
def OrderBook._insert (bk : OrderBook) (order : Order) : OrderBook :=
  match order.side with
  | OrderSide.BUY =>
      { bk with bid := insortLeft bidKey order bk.bid,
                buy_dic := dicSet bk.buy_dic order.id order }
  | OrderSide.SELL =>
      { bk with ask := insortLeft askKey order bk.ask,
                sell_dic := dicSet bk.sell_dic order.id order }

/-- insert of a list of orders, dispatched one by one -/
def OrderBook.insertAll (bk : OrderBook) (orders : List Order) : OrderBook :=
  orders.foldl OrderBook._insert bk

/-- pop returns the head of the side's sequence — none when that side is
empty — and leaves the book untouched; the second component is the state the
operation leaves behind -/
def OrderBook.pop (bk : OrderBook) (side : OrderSide) : Option Order × OrderBook :=
  match side with
  | OrderSide.BUY => (bk.bid.head?, bk)
  | OrderSide.SELL => (bk.ask.head?, bk)

/-- delete_order: remove the head of the given order's side (an IndexError
when that side is empty), then delete the given order's id from the unified
hash_map (a KeyError, carrying the id, when absent — with the head removal
already applied) -/
def OrderBook.delete_order (bk : OrderBook) (order : Order) :
    Except BookError Unit × OrderBook :=
  match order.side with
  | OrderSide.BUY =>
      match bk.bid with
      | [] => (Except.error BookError.indexError, bk)
      | _ :: rest =>
          let bk1 : OrderBook := { bk with bid := rest }
          match hmDel bk1 order.id with
          | some bk2 => (Except.ok (), bk2)
          | none => (Except.error (BookError.keyError order.id), bk1)
  | OrderSide.SELL =>
      match bk.ask with
      | [] => (Except.error BookError.indexError, bk)
      | _ :: rest =>
          let bk1 : OrderBook := { bk with ask := rest }
          match hmDel bk1 order.id with
          | some bk2 => (Except.ok (), bk2)
          | none => (Except.error (BookError.keyError order.id), bk1)

/-- get: lookup through the unified hash_map, a KeyError carrying the id when
absent; the book is returned unchanged in both cases -/
def OrderBook.get (bk : OrderBook) (oid : Nat) :
    Except BookError Order × OrderBook :=
  match hmGet bk oid with
  | some o => (Except.ok o, bk)
  | none => (Except.error (BookError.keyError oid), bk)

/-- the cleanup threshold abs(0.0001) of the matching loop, as the exact
rational one ten-thousandth -/
def fillEps : Rat := mkRat 1 10000

def Order.setQty (o : Order) (q : Rat) : Order := { o with qty := q }

/-- in-place mutation of a resting order's quantity: ids are unique across a
reachable book, so rewriting every entry carrying the id models mutating the
one shared object aliased by the sequence and its sub-dict -/
def setQtyById (bk : OrderBook) (oid : Nat) (q : Rat) : OrderBook :=
  { ask := bk.ask.map (fun o => if o.id = oid then o.setQty q else o),
    bid := bk.bid.map (fun o => if o.id = oid then o.setQty q else o),
    buy_dic := bk.buy_dic.map (fun p => if p.2.id = oid then (p.1, p.2.setQty q) else p),
    sell_dic := bk.sell_dic.map (fun p => if p.2.id = oid then (p.1, p.2.setQty q) else p) }

/-- one iteration of the matching loop body, for the popped resting order bo
and the incoming order's remaining quantity q: compute the fill as the
minimum of the two quantities, decrement both, and delete the resting order
from its sequence and the hash_map once its remainder falls below the epsilon -/
def mktStep (bk : OrderBook) (bo : Order) (q : Rat) :
    Except BookError Unit × OrderBook × Rat :=
  let qty_fill := min q bo.qty
  let q1 := q - qty_fill
  let boQty := bo.qty - qty_fill
  let bk1 := setQtyById bk bo.id boQty
  if boQty < fillEps then
    match bk1.delete_order (bo.setQty boQty) with
    | (Except.ok _, bk2) => (Except.ok (), bk2, q1)
    | (Except.error e, bk2) => (Except.error e, bk2, q1)
  else
    (Except.ok (), bk1, q1)

/-- the while loop of _process_mkt, driven by explicit fuel (each iteration
either finishes or shrinks a sequence, so the fuel supplied by the entry point
is never exhausted — proved below): while the incoming quantity is positive,
pop the best opposing order (an AttributeError on the empty None result) and
run one fill step -/
def mktLoop : Nat → OrderSide → OrderBook → Rat →
    Except BookError Unit × OrderBook × Rat
  | 0, _, bk, q => (Except.error BookError.fuelExhausted, bk, q)
  | fuel + 1, side, bk, q =>
    if 0 < q then
      match (bk.pop side).1 with
      | none => (Except.error BookError.attributeError, bk, q)
      | some bo =>
        match mktStep bk bo q with
        | (Except.ok _, bk1, q1) => mktLoop fuel side bk1 q1
        | (Except.error e, bk1, q1) => (Except.error e, bk1, q1)
    else (Except.ok (), bk, q)

/-- the MissingOrder message of the empty-opposing-side check -/
def noFillMsg : String := "No Order to fill, canceling order."

/-- market-order processing: fail with MissingOrder when the opposing side is
empty, else run the matching loop against that side; the third component is
the incoming order's remaining quantity -/
def OrderBook._process_mkt (bk : OrderBook) (order : Order) :
    Except BookError Unit × OrderBook × Rat :=
  match order.side with
  | OrderSide.BUY =>
      if bk.ask.length = 0 then
        (Except.error (BookError.missingOrder noFillMsg), bk, order.qty)
      else mktLoop (bk.ask.length + bk.bid.length + 2) OrderSide.SELL bk order.qty
  | OrderSide.SELL =>
      if bk.bid.length = 0 then
        (Except.error (BookError.missingOrder noFillMsg), bk, order.qty)
      else mktLoop (bk.ask.length + bk.bid.length + 2) OrderSide.BUY bk order.qty

/-- limit-order processing is an inert hook in the source: it does nothing -/
def OrderBook._process_lmt (bk : OrderBook) (order : Order) :
    Except BookError Unit × OrderBook × Rat :=
  (Except.ok (), bk, order.qty)

/-- order processing dispatch by order type -/
def OrderBook._process_order (bk : OrderBook) (order : Order) :
    Except BookError Unit × OrderBook × Rat :=
  match order.type_ with
  | OrderType.LIMIT => bk._process_lmt order
  | OrderType.MARKET => bk._process_mkt order

/-! Concrete orders and books used by the witness and counterexample
theorems below. -/

/-- resting SELL(price=5, qty=2) of Example 5 -/
def c1Sell : Order :=
  { price := 5, qty := 2, time := 0, side := OrderSide.SELL,
    type_ := OrderType.LIMIT, id := 0 }

/-- the aggressive MARKET BUY(qty=5) of Example 5 -/
def c1Mkt : Order :=
  { price := 0, qty := 5, time := 1, side := OrderSide.BUY,
    type_ := OrderType.MARKET, id := 1 }

/-- book holding only the resting SELL(price=5, qty=2) -/
def c1Book : OrderBook := OrderBook.empty._insert c1Sell

/-- the MARKET SELL(qty=1) of Example 3 -/
def w2Sell : Order :=
  { price := 0, qty := 1, time := 0, side := OrderSide.SELL,
    type_ := OrderType.MARKET, id := 0 }

/-- BUY(price=10, qty=5, t=1) of Example 1, inserted first -/
def w3b1 : Order :=
  { price := 10, qty := 5, time := 1, side := OrderSide.BUY,
    type_ := OrderType.LIMIT, id := 0 }

/-- BUY(price=10, qty=3, t=0) of Example 1, inserted second -/
def w3b0 : Order :=
  { price := 10, qty := 3, time := 0, side := OrderSide.BUY,
    type_ := OrderType.LIMIT, id := 1 }

/-- resting SELL(price=9, qty=4) of Example 2 -/
def ex2Sell1 : Order :=
  { price := 9, qty := 4, time := 0, side := OrderSide.SELL,
    type_ := OrderType.LIMIT, id := 0 }

/-- resting SELL(price=9.5, qty=2) of Example 2 -/
def ex2Sell2 : Order :=
  { price := mkRat 19 2, qty := 2, time := 1, side := OrderSide.SELL,
    type_ := OrderType.LIMIT, id := 1 }

/-- the aggressive MARKET BUY(qty=3) of Example 2 -/
def ex2Mkt : Order :=
  { price := 0, qty := 3, time := 2, side := OrderSide.BUY,
    type_ := OrderType.MARKET, id := 2 }

/-- book holding the two resting sells of Example 2, best price first -/
def ex2Book : OrderBook := OrderBook.empty.insertAll [ex2Sell1, ex2Sell2]

/-- best-priced resting BUY (the bid head) -/
def w6b1 : Order :=
  { price := 10, qty := 1, time := 0, side := OrderSide.BUY,
    type_ := OrderType.LIMIT, id := 0 }

/-- worse-priced resting BUY behind the head -/
def w6b2 : Order :=
  { price := 8, qty := 1, time := 1, side := OrderSide.BUY,
    type_ := OrderType.LIMIT, id := 1 }

/-- book holding the two resting buys -/
def w6Book : OrderBook := OrderBook.empty.insertAll [w6b1, w6b2]

/-- a BUY order whose id 99 was never inserted anywhere -/
def w7Ghost : Order :=
  { price := 10, qty := 1, time := 2, side := OrderSide.BUY,
    type_ := OrderType.LIMIT, id := 99 }

/-- better-priced resting BUY(price=10, qty=4) of the sell-side mirror of
Example 2 -/
def ex5Buy1 : Order :=
  { price := 10, qty := 4, time := 0, side := OrderSide.BUY,
    type_ := OrderType.LIMIT, id := 0 }

/-- worse-priced resting BUY(price=8, qty=2) of the sell-side mirror -/
def ex5Buy2 : Order :=
  { price := 8, qty := 2, time := 1, side := OrderSide.BUY,
    type_ := OrderType.LIMIT, id := 1 }

/-- the aggressive MARKET SELL(qty=3) of the sell-side mirror -/
def ex5Mkt : Order :=
  { price := 0, qty := 3, time := 2, side := OrderSide.SELL,
    type_ := OrderType.MARKET, id := 2 }

/-- book holding the two resting buys of the sell-side mirror, best first -/
def ex5Book : OrderBook := OrderBook.empty.insertAll [ex5Buy1, ex5Buy2]

/-- every quantity stored anywhere in the book is non-negative -/
def qtyNonneg (bk : OrderBook) : Prop :=
  (∀ x ∈ bk.ask, 0 ≤ x.qty) ∧ (∀ x ∈ bk.bid, 0 ≤ x.qty) ∧
  (∀ p ∈ bk.buy_dic, 0 ≤ p.2.qty) ∧ (∀ p ∈ bk.sell_dic, 0 ≤ p.2.qty)

instance : DecidableEq (Except BookError Unit) := fun a b =>
  match a, b with
  | Except.ok _, Except.ok _ => isTrue rfl
  | Except.error e1, Except.error e2 =>
      if h : e1 = e2 then isTrue (by rw [h]) else isFalse (fun hh => by cases hh; exact h rfl)
  | Except.ok _, Except.error _ => isFalse (fun hh => by cases hh)
  | Except.error _, Except.ok _ => isFalse (fun hh => by cases hh)

/-! Association-list dictionary lemmas. -/

theorem dicGet_cons (p : Nat × Order) (ps : Dic) (k : Nat) :
    dicGet (p :: ps) k = if p.1 == k then some p.2 else dicGet ps k := by
  cases hpk : (p.1 == k) <;> simp [dicGet, List.find?_cons, hpk]

theorem dicContains_cons (p : Nat × Order) (ps : Dic) (k : Nat) :
    dicContains (p :: ps) k = (p.1 == k || dicContains ps k) := by
  simp [dicContains, List.any_cons]

theorem dicContains_false_iff (d : Dic) (k : Nat) :
    dicContains d k = false ↔ dicGet d k = none := by
  induction d with
  | nil => simp [dicContains, dicGet]
  | cons p ps ih =>
      rw [dicContains_cons, dicGet_cons]
      cases hpk : (p.1 == k) with
      | true => simp [hpk]
      | false => simpa [hpk] using ih

theorem dicGet_dicSet_self (d : Dic) (k : Nat) (v : Order) :
    dicGet (dicSet d k v) k = some v := by
  unfold dicSet
  cases h : dicContains d k with
  | false =>
      simp only [Bool.false_eq_true, if_false]
      induction d with
      | nil => simp [dicGet, List.find?_cons]
      | cons p ps ih =>
          rw [dicContains_cons] at h
          have hpk : (p.1 == k) = false := by
            cases hx : (p.1 == k) <;> simp [hx] at h ⊢
          have h2 : dicContains ps k = false := by
            cases hx : dicContains ps k <;> simp [hpk, hx] at h ⊢
          rw [List.cons_append, dicGet_cons, if_neg (by simp [hpk])]
          exact ih h2
  | true =>
      simp only [if_true]
      induction d with
      | nil => simp [dicContains] at h
      | cons p ps ih =>
          cases hpk : (p.1 == k) with
          | true =>
              rw [List.map_cons, if_pos hpk, dicGet_cons]
              simp
          | false =>
              rw [dicContains_cons, hpk, Bool.false_or] at h
              rw [List.map_cons, if_neg (by simp [hpk]), dicGet_cons,
                if_neg (by simp [hpk])]
              exact ih h

theorem dicGet_dicDel_self (d : Dic) (k : Nat) :
    dicGet (dicDel d k) k = none := by
  induction d with
  | nil => rfl
  | cons p ps ih =>
      unfold dicDel at ih ⊢
      rw [List.filter_cons]
      cases hpk : (p.1 == k) with
      | true =>
          rw [if_neg (by simp [bne, hpk])]
          exact ih
      | false =>
          rw [if_pos (by simp [bne, hpk]), dicGet_cons, if_neg (by simp [hpk])]
          exact ih

/-! Claim theorems: lookup, peek and index routing. -/

/-- Claim C10: for every book state and side, pop returns the head of that
side's sequence (the empty sentinel none when the side is empty) and leaves
the book — bid, ask and both index sub-dictionaries — exactly unchanged. -/
theorem claim_C10_pop_is_pure_peek (bk : OrderBook) (side : OrderSide) :
    (bk.pop side).2 = bk ∧
    (bk.pop side).1 = (match side with
      | OrderSide.BUY => bk.bid.head?
      | OrderSide.SELL => bk.ask.head?) := by
  cases side <;> exact ⟨rfl, rfl⟩

/-- Claim C9: get returns the Order stored under a present id (buy-side
sub-dict first, as the unified index does), fails with a KeyError carrying the
offending id when the id is absent, and returns the book unchanged in both
cases. -/
theorem claim_C9_get_lookup (bk : OrderBook) (oid : Nat) :
    (∀ o : Order, hmGet bk oid = some o → bk.get oid = (Except.ok o, bk)) ∧
    (hmGet bk oid = none →
      bk.get oid = (Except.error (BookError.keyError oid), bk)) := by
  constructor
  · intro o h
    unfold OrderBook.get
    rw [h]
  · intro h
    unfold OrderBook.get
    rw [h]

/-- Claim C9 witness: on the two-buy book, a present id returns its order and
the never-inserted id 42 fails with a KeyError carrying 42, the book
untouched. -/
theorem claim_C9_get_lookup_witness :
    w6Book.get 0 = (Except.ok w6b1, w6Book) ∧
    w6Book.get 42 = (Except.error (BookError.keyError 42), w6Book) :=
  ⟨(claim_C9_get_lookup w6Book 0).1 w6b1 (by with_unfolding_all decide),
   (claim_C9_get_lookup w6Book 42).2 (by with_unfolding_all decide)⟩

/-- Claim C8: the unified index routes a write to the sub-dict currently
holding the id (buy-side first) and a write for a brand-new id appends to the
buy-side sub-dict; a delete is likewise routed to whichever sub-dict holds the
id — the id is removed from that holder while the other sub-dict stays
untouched — and a delete for an id held by neither sub-dict fails. -/
theorem claim_C8_index_routing (bk : OrderBook) (k : Nat) (v : Order) :
    (dicContains bk.buy_dic k = true →
      dicGet (hmSet bk k v).buy_dic k = some v ∧
      (hmSet bk k v).sell_dic = bk.sell_dic) ∧
    (dicContains bk.buy_dic k = false → dicContains bk.sell_dic k = true →
      dicGet (hmSet bk k v).sell_dic k = some v ∧
      (hmSet bk k v).buy_dic = bk.buy_dic) ∧
    (dicContains bk.buy_dic k = false → dicContains bk.sell_dic k = false →
      (hmSet bk k v).buy_dic = bk.buy_dic ++ [(k, v)] ∧
      (hmSet bk k v).sell_dic = bk.sell_dic) ∧
    (dicContains bk.buy_dic k = true →
      ∃ bk2, hmDel bk k = some bk2 ∧ bk2.buy_dic = dicDel bk.buy_dic k ∧
        dicGet bk2.buy_dic k = none ∧ bk2.sell_dic = bk.sell_dic) ∧
    (dicContains bk.buy_dic k = false → dicContains bk.sell_dic k = true →
      ∃ bk2, hmDel bk k = some bk2 ∧ bk2.sell_dic = dicDel bk.sell_dic k ∧
        dicGet bk2.sell_dic k = none ∧ bk2.buy_dic = bk.buy_dic) ∧
    (dicContains bk.buy_dic k = false → dicContains bk.sell_dic k = false →
      hmDel bk k = none) := by
  refine ⟨fun hb => ?_, fun hb hs => ?_, fun hb hs => ?_,
    fun hb => ?_, fun hb hs => ?_, fun hb hs => ?_⟩
  · unfold hmSet
    rw [if_pos hb]
    exact ⟨dicGet_dicSet_self bk.buy_dic k v, rfl⟩
  · unfold hmSet
    rw [if_neg (by simp [hb]), if_pos hs]
    exact ⟨dicGet_dicSet_self bk.sell_dic k v, rfl⟩
  · unfold hmSet
    rw [if_neg (by simp [hb]), if_neg (by simp [hs])]
    refine ⟨?_, rfl⟩
    unfold dicSet
    rw [if_neg (by simp [hb])]
  · unfold hmDel
    rw [if_pos hb]
    exact ⟨_, rfl, rfl, dicGet_dicDel_self bk.buy_dic k, rfl⟩
  · unfold hmDel
    rw [if_neg (by simp [hb]), if_pos hs]
    exact ⟨_, rfl, rfl, dicGet_dicDel_self bk.sell_dic k, rfl⟩
  · unfold hmDel
    rw [if_neg (by simp [hb]), if_neg (by simp [hs])]

/-- Claim C8 witness: on the one-sell book, a write for the sell-held id 0
lands in the sell-side sub-dict leaving the buy side alone; on the empty book
a write for the fresh id 7 appends buy-side and a delete for id 7 fails; a
delete for the buy-held id 0 of the two-buy book, and for the sell-held id 0
of the one-sell book, is routed to the holding sub-dict with the other
untouched. -/
theorem claim_C8_index_routing_witness :
    dicGet (hmSet c1Book 0 w6b1).sell_dic 0 = some w6b1 ∧
    (hmSet c1Book 0 w6b1).buy_dic = c1Book.buy_dic ∧
    (hmSet OrderBook.empty 7 w6b1).buy_dic = [(7, w6b1)] ∧
    (∃ bk2, hmDel w6Book 0 = some bk2 ∧
      bk2.buy_dic = dicDel w6Book.buy_dic 0 ∧
      dicGet bk2.buy_dic 0 = none ∧ bk2.sell_dic = w6Book.sell_dic) ∧
    (∃ bk2, hmDel c1Book 0 = some bk2 ∧
      bk2.sell_dic = dicDel c1Book.sell_dic 0 ∧
      dicGet bk2.sell_dic 0 = none ∧ bk2.buy_dic = c1Book.buy_dic) ∧
    hmDel OrderBook.empty 7 = none := by
  have h1 := (claim_C8_index_routing c1Book 0 w6b1).2.1
    (by with_unfolding_all decide) (by with_unfolding_all decide)
  have h2 := (claim_C8_index_routing OrderBook.empty 7 w6b1).2.2.1
    (by with_unfolding_all decide) (by with_unfolding_all decide)
  have h3 := (claim_C8_index_routing w6Book 0 w6b1).2.2.2.1
    (by with_unfolding_all decide)
  have h4 := (claim_C8_index_routing c1Book 0 w6b1).2.2.2.2.1
    (by with_unfolding_all decide) (by with_unfolding_all decide)
  have h5 := (claim_C8_index_routing OrderBook.empty 7 w6b1).2.2.2.2.2
    (by with_unfolding_all decide) (by with_unfolding_all decide)
  exact ⟨h1.1, h1.2, by simpa using h2.1, h3, h4, h5⟩

/-! Claim theorems: error handling of market orders and deletes. -/

/-- Claim C2: a market order submitted against an empty opposing side (ask for
a BUY, bid for a SELL) fails with the MissingOrder no-liquidity error and the
whole book state — bid, ask and both index sub-dictionaries — is returned
exactly unchanged, the incoming order registered nowhere. -/
theorem claim_C2_no_liquidity_unchanged (bk : OrderBook) (o : Order)
    (htype : o.type_ = OrderType.MARKET)
    (hopp : (o.side = OrderSide.BUY ∧ bk.ask = []) ∨
            (o.side = OrderSide.SELL ∧ bk.bid = [])) :
    bk._process_order o =
      (Except.error (BookError.missingOrder noFillMsg), bk, o.qty) := by
  unfold OrderBook._process_order
  rw [htype]
  unfold OrderBook._process_mkt
  rcases hopp with ⟨hs, he⟩ | ⟨hs, he⟩ <;> rw [hs] <;> simp [he]

/-- Claim C2 witness: Example 3, a MARKET SELL(qty=1) against the empty book
fails with the no-liquidity error and leaves the empty book intact. -/
theorem claim_C2_no_liquidity_unchanged_witness :
    OrderBook.empty._process_order w2Sell =
      (Except.error (BookError.missingOrder noFillMsg), OrderBook.empty, 1) :=
  claim_C2_no_liquidity_unchanged OrderBook.empty w2Sell rfl (Or.inr ⟨rfl, rfl⟩)

/-- Claim C7 counterexample: deleting an order whose id 99 is absent from the
index does raise the KeyError carrying 99, but the book state is NOT left
unchanged — the head of the bid sequence has already been removed, refuting
the claim at this input. -/
theorem claim_C7_counterexample :
    hmGet w6Book w7Ghost.id = none ∧
    (w6Book.delete_order w7Ghost).1 = Except.error (BookError.keyError 99) ∧
    (w6Book.delete_order w7Ghost).2 ≠ w6Book := by
  with_unfolding_all decide

/-- Claim C7 as amended: for an order whose id is absent from the unified
index, delete fails — with the KeyError carrying that id when the order's
side sequence is non-empty, but only after the head of that side's sequence
has been removed (the index itself unchanged), and with an IndexError, the
book fully unchanged, when that side's sequence is empty. -/
theorem claim_C7_delete_missing_mutates (bk : OrderBook) (o : Order)
    (habs : hmGet bk o.id = none) :
    (o.side = OrderSide.BUY →
      (bk.bid = [] → bk.delete_order o = (Except.error BookError.indexError, bk)) ∧
      (∀ x t, bk.bid = x :: t →
        bk.delete_order o =
          (Except.error (BookError.keyError o.id), { bk with bid := t }))) ∧
    (o.side = OrderSide.SELL →
      (bk.ask = [] → bk.delete_order o = (Except.error BookError.indexError, bk)) ∧
      (∀ x t, bk.ask = x :: t →
        bk.delete_order o =
          (Except.error (BookError.keyError o.id), { bk with ask := t }))) := by
  have hbuy : dicContains bk.buy_dic o.id = false := by
    rw [dicContains_false_iff]
    unfold hmGet at habs
    cases hg : dicGet bk.buy_dic o.id with
    | none => rfl
    | some v => rw [hg] at habs; cases habs
  have hsell : dicContains bk.sell_dic o.id = false := by
    rw [dicContains_false_iff]
    unfold hmGet at habs
    cases hg : dicGet bk.buy_dic o.id with
    | none => rwa [hg] at habs
    | some v => rw [hg] at habs; cases habs
  constructor
  · intro hside
    constructor
    · intro hbid
      unfold OrderBook.delete_order
      rw [hside, hbid]
    · intro x t hbid
      unfold OrderBook.delete_order
      rw [hside, hbid]
      simp only [hmDel, hbuy, hsell, Bool.false_eq_true, if_false]
  · intro hside
    constructor
    · intro hask
      unfold OrderBook.delete_order
      rw [hside, hask]
    · intro x t hask
      unfold OrderBook.delete_order
      rw [hside, hask]
      simp only [hmDel, hbuy, hsell, Bool.false_eq_true, if_false]

/-- Claim C7 witness: on the two-buy book, deleting the ghost order (id 99,
absent) raises the KeyError carrying 99 while the bid head has been removed. -/
theorem claim_C7_delete_missing_mutates_witness :
    w6Book.delete_order w7Ghost =
      (Except.error (BookError.keyError 99), { w6Book with bid := [w6b2] }) := by
  have h := (claim_C7_delete_missing_mutates w6Book w7Ghost
    (by with_unfolding_all decide)).1 rfl
  exact h.2 w6b1 [w6b2] (by with_unfolding_all decide)

/-- Claim C6: for every order passed to delete whose side sequence is
non-empty (and whose id does not sit in both sub-dictionaries at once, as in
every reachable book), delete removes the head of that side's sequence —
whether or not the passed order is that head — leaves the other side alone,
and afterwards the passed order's id is absent from the unified index; when
the id was present the operation reports success. -/
theorem claim_C6_delete_removes_head (bk : OrderBook) (o : Order)
    (hdisj : ¬(dicContains bk.buy_dic o.id = true ∧
               dicContains bk.sell_dic o.id = true)) :
    (∀ x t, o.side = OrderSide.BUY → bk.bid = x :: t →
      (bk.delete_order o).2.bid = t ∧
      (bk.delete_order o).2.ask = bk.ask ∧
      hmGet (bk.delete_order o).2 o.id = none ∧
      (hmGet bk o.id ≠ none → (bk.delete_order o).1 = Except.ok ())) ∧
    (∀ x t, o.side = OrderSide.SELL → bk.ask = x :: t →
      (bk.delete_order o).2.ask = t ∧
      (bk.delete_order o).2.bid = bk.bid ∧
      hmGet (bk.delete_order o).2 o.id = none ∧
      (hmGet bk o.id ≠ none → (bk.delete_order o).1 = Except.ok ())) := by
  constructor
  · intro x t hside hbid
    unfold OrderBook.delete_order
    rw [hside, hbid]
    simp only [hmDel]
    cases hb : dicContains bk.buy_dic o.id with
    | true =>
        have hs : dicContains bk.sell_dic o.id = false := by
          cases hx : dicContains bk.sell_dic o.id with
          | true => exact absurd ⟨hb, hx⟩ hdisj
          | false => rfl
        simp only [hb, if_true]
        refine ⟨by trivial, by trivial, ?_, fun _ => by trivial⟩
        unfold hmGet
        simp only [dicGet_dicDel_self]
        exact (dicContains_false_iff bk.sell_dic o.id).mp hs
    | false =>
        simp only [hb, Bool.false_eq_true, if_false]
        cases hs : dicContains bk.sell_dic o.id with
        | true =>
            simp only [if_true]
            refine ⟨by trivial, by trivial, ?_, fun _ => by trivial⟩
            unfold hmGet
            rw [(dicContains_false_iff bk.buy_dic o.id).mp hb]
            exact dicGet_dicDel_self bk.sell_dic o.id
        | false =>
            simp only [Bool.false_eq_true, if_false]
            refine ⟨by trivial, by trivial, ?_, fun hne => ?_⟩
            · unfold hmGet
              rw [(dicContains_false_iff bk.buy_dic o.id).mp hb]
              exact (dicContains_false_iff bk.sell_dic o.id).mp hs
            · exfalso
              apply hne
              unfold hmGet
              rw [(dicContains_false_iff bk.buy_dic o.id).mp hb]
              exact (dicContains_false_iff bk.sell_dic o.id).mp hs
  · intro x t hside hask
    unfold OrderBook.delete_order
    rw [hside, hask]
    simp only [hmDel]
    cases hb : dicContains bk.buy_dic o.id with
    | true =>
        have hs : dicContains bk.sell_dic o.id = false := by
          cases hx : dicContains bk.sell_dic o.id with
          | true => exact absurd ⟨hb, hx⟩ hdisj
          | false => rfl
        simp only [hb, if_true]
        refine ⟨by trivial, by trivial, ?_, fun _ => by trivial⟩
        unfold hmGet
        simp only [dicGet_dicDel_self]
        exact (dicContains_false_iff bk.sell_dic o.id).mp hs
    | false =>
        simp only [hb, Bool.false_eq_true, if_false]
        cases hs : dicContains bk.sell_dic o.id with
        | true =>
            simp only [if_true]
            refine ⟨by trivial, by trivial, ?_, fun _ => by trivial⟩
            unfold hmGet
            rw [(dicContains_false_iff bk.buy_dic o.id).mp hb]
            exact dicGet_dicDel_self bk.sell_dic o.id
        | false =>
            simp only [Bool.false_eq_true, if_false]
            refine ⟨by trivial, by trivial, ?_, fun hne => ?_⟩
            · unfold hmGet
              rw [(dicContains_false_iff bk.buy_dic o.id).mp hb]
              exact (dicContains_false_iff bk.sell_dic o.id).mp hs
            · exfalso
              apply hne
              unfold hmGet
              rw [(dicContains_false_iff bk.buy_dic o.id).mp hb]
              exact (dicContains_false_iff bk.sell_dic o.id).mp hs

/-- Claim C6 witness: on the two-buy book, deleting the second-priority order
w6b2 removes the HEAD w6b1 from the bid sequence (not the passed order),
removes id 1 from the index, and reports success. -/
theorem claim_C6_delete_removes_head_witness :
    (w6Book.delete_order w6b2).2.bid = [w6b2] ∧
    (w6Book.delete_order w6b2).2.ask = [] ∧
    hmGet (w6Book.delete_order w6b2).2 1 = none ∧
    (w6Book.delete_order w6b2).1 = Except.ok () := by
  have h := (claim_C6_delete_removes_head w6Book w6b2
    (by with_unfolding_all decide)).1 w6b1 [w6b2] rfl
    (by with_unfolding_all decide)
  exact ⟨h.1, h.2.1, h.2.2.1, h.2.2.2 (by with_unfolding_all decide)⟩

/-! Sorted-insertion lemmas and the sort invariant (Claim C3). -/

theorem mem_insortLeft (key : Order → Rat ×ₗ Nat) (x z : Order) :
    ∀ l : List Order, z ∈ insortLeft key x l → z = x ∨ z ∈ l := by
  intro l
  induction l with
  | nil =>
      intro h
      simp [insortLeft] at h
      exact Or.inl h
  | cons y ys ih =>
      intro h
      unfold insortLeft at h
      by_cases hc : key y < key x
      · rw [if_pos hc] at h
        rcases List.mem_cons.mp h with h1 | h2
        · exact Or.inr (List.mem_cons.mpr (Or.inl h1))
        · rcases ih h2 with h3 | h4
          · exact Or.inl h3
          · exact Or.inr (List.mem_cons.mpr (Or.inr h4))
      · rw [if_neg hc] at h
        rcases List.mem_cons.mp h with h1 | h2
        · exact Or.inl h1
        · exact Or.inr h2

theorem insortLeft_sorted (key : Order → Rat ×ₗ Nat) (x : Order) :
    ∀ l : List Order, List.Sorted (fun a b => key a ≤ key b) l →
      List.Sorted (fun a b => key a ≤ key b) (insortLeft key x l) := by
  intro l
  induction l with
  | nil =>
      intro _
      simp [insortLeft]
  | cons y ys ih =>
      intro hs
      rw [List.sorted_cons] at hs
      obtain ⟨hy, hys⟩ := hs
      unfold insortLeft
      by_cases hc : key y < key x
      · rw [if_pos hc, List.sorted_cons]
        refine ⟨?_, ih hys⟩
        intro z hz
        rcases mem_insortLeft key x z ys hz with h1 | h2
        · rw [h1]
          exact le_of_lt hc
        · exact hy z h2
      · rw [if_neg hc, List.sorted_cons]
        refine ⟨?_, List.sorted_cons.mpr ⟨hy, hys⟩⟩
        intro z hz
        rcases List.mem_cons.mp hz with h1 | h2
        · rw [h1]
          exact le_of_not_lt hc
        · exact le_trans (le_of_not_lt hc) (hy z h2)

theorem insert_sorted_step (bk : OrderBook) (o : Order)
    (hb : List.Sorted (fun a b => bidKey a ≤ bidKey b) bk.bid)
    (ha : List.Sorted (fun a b => askKey a ≤ askKey b) bk.ask) :
    List.Sorted (fun a b => bidKey a ≤ bidKey b) (bk._insert o).bid ∧
    List.Sorted (fun a b => askKey a ≤ askKey b) (bk._insert o).ask := by
  unfold OrderBook._insert
  cases hs : o.side with
  | BUY => exact ⟨insortLeft_sorted bidKey o bk.bid hb, ha⟩
  | SELL => exact ⟨hb, insortLeft_sorted askKey o bk.ask ha⟩

theorem insertAll_sorted (orders : List Order) : ∀ bk : OrderBook,
    List.Sorted (fun a b => bidKey a ≤ bidKey b) bk.bid →
    List.Sorted (fun a b => askKey a ≤ askKey b) bk.ask →
    List.Sorted (fun a b => bidKey a ≤ bidKey b) (bk.insertAll orders).bid ∧
    List.Sorted (fun a b => askKey a ≤ askKey b) (bk.insertAll orders).ask := by
  induction orders with
  | nil =>
      intro bk hb ha
      exact ⟨hb, ha⟩
  | cons o os ih =>
      intro bk hb ha
      have hstep := insert_sorted_step bk o hb ha
      have hrw : bk.insertAll (o :: os) = (bk._insert o).insertAll os := rfl
      rw [hrw]
      exact ih (bk._insert o) hstep.1 hstep.2

/-- Claim C3: after any sequence of inserts into the empty book, bid is
sorted by the lexicographic key (negated price, time) — descending price then
ascending time — and ask by (price, time); in particular, among same-side
orders of equal price the earlier timestamp precedes. -/
theorem claim_C3_sort_invariant (orders : List Order) :
    (OrderBook.empty.insertAll orders).bid.Sorted (fun a b => bidKey a ≤ bidKey b) ∧
    (OrderBook.empty.insertAll orders).ask.Sorted (fun a b => askKey a ≤ askKey b) ∧
    (OrderBook.empty.insertAll orders).bid.Pairwise
      (fun a b => a.price = b.price → a.time ≤ b.time) ∧
    (OrderBook.empty.insertAll orders).ask.Pairwise
      (fun a b => a.price = b.price → a.time ≤ b.time) := by
  obtain ⟨hb, ha⟩ :=
    insertAll_sorted orders OrderBook.empty List.sorted_nil List.sorted_nil
  refine ⟨hb, ha, ?_, ?_⟩
  · refine List.Pairwise.imp ?_ hb
    intro a b hle hp
    simp only [bidKey, Prod.Lex.le_iff] at hle
    rcases hle with h1 | ⟨h2, h3⟩
    · rw [hp] at h1
      exact absurd h1 (lt_irrefl _)
    · exact h3
  · refine List.Pairwise.imp ?_ ha
    intro a b hle hp
    simp only [askKey, Prod.Lex.le_iff] at hle
    rcases hle with h1 | ⟨h2, h3⟩
    · rw [hp] at h1
      exact absurd h1 (lt_irrefl _)
    · exact h3

/-- Claim C3 witness: Example 1 — inserting BUY(price 10, qty 5, t=1) and
then BUY(price 10, qty 3, t=0) leaves the bid sequence time-ordered at equal
price, with the earlier-timestamp order first. -/
theorem claim_C3_sort_invariant_witness :
    (OrderBook.empty.insertAll [w3b1, w3b0]).bid.Pairwise
      (fun a b => a.price = b.price → a.time ≤ b.time) ∧
    (OrderBook.empty.insertAll [w3b1, w3b0]).bid = [w3b0, w3b1] :=
  ⟨(claim_C3_sort_invariant [w3b1, w3b0]).2.2.1, by with_unfolding_all decide⟩

/-! Fill-step lemmas and quantity conservation (Claim C4). -/

theorem map_setQty_nonneg (i : Nat) (q : Rat) (l : List Order)
    (hq : 0 ≤ q) (h : ∀ x ∈ l, 0 ≤ x.qty) :
    ∀ x ∈ l.map (fun o => if o.id = i then o.setQty q else o), 0 ≤ x.qty := by
  intro x hx
  rcases List.mem_map.mp hx with ⟨o, ho, rfl⟩
  by_cases hid : o.id = i
  · simpa [hid, Order.setQty] using hq
  · simpa [hid] using h o ho

theorem mapd_setQty_nonneg (i : Nat) (q : Rat) (d : Dic)
    (hq : 0 ≤ q) (h : ∀ p ∈ d, 0 ≤ p.2.qty) :
    ∀ p ∈ d.map (fun p => if p.2.id = i then (p.1, p.2.setQty q) else p),
      0 ≤ p.2.qty := by
  intro p hp
  rcases List.mem_map.mp hp with ⟨r, hr, rfl⟩
  by_cases hid : r.2.id = i
  · simpa [hid, Order.setQty] using hq
  · simpa [hid] using h r hr

theorem setQtyById_nonneg (bk : OrderBook) (i : Nat) (q : Rat)
    (hq : 0 ≤ q) (h : qtyNonneg bk) : qtyNonneg (setQtyById bk i q) := by
  obtain ⟨h1, h2, h3, h4⟩ := h
  exact ⟨map_setQty_nonneg i q bk.ask hq h1, map_setQty_nonneg i q bk.bid hq h2,
    mapd_setQty_nonneg i q bk.buy_dic hq h3, mapd_setQty_nonneg i q bk.sell_dic hq h4⟩

theorem map_setQty_id_qty (i : Nat) (q : Rat) (l : List Order) :
    ∀ x ∈ l.map (fun o => if o.id = i then o.setQty q else o),
      x.id = i → x.qty = q := by
  intro x hx hxi
  rcases List.mem_map.mp hx with ⟨o, ho, rfl⟩
  by_cases hid : o.id = i
  · simp [hid, Order.setQty]
  · rw [if_neg hid] at hxi ⊢
    exact absurd hxi hid

theorem delete_order_state_subset (bk : OrderBook) (o : Order) :
    (bk.delete_order o).2.ask ⊆ bk.ask ∧ (bk.delete_order o).2.bid ⊆ bk.bid ∧
    (bk.delete_order o).2.buy_dic ⊆ bk.buy_dic ∧
    (bk.delete_order o).2.sell_dic ⊆ bk.sell_dic := by
  obtain ⟨ask, bid, bd, sd⟩ := bk
  unfold OrderBook.delete_order
  cases o.side with
  | BUY =>
      cases bid with
      | nil => exact ⟨List.Subset.refl _, List.Subset.refl _,
          List.Subset.refl _, List.Subset.refl _⟩
      | cons x t =>
          simp only [hmDel]
          split_ifs with hb hs
          · exact ⟨List.Subset.refl _, List.subset_cons_self x t,
              (List.filter_sublist bd).subset, List.Subset.refl _⟩
          · exact ⟨List.Subset.refl _, List.subset_cons_self x t,
              List.Subset.refl _, (List.filter_sublist sd).subset⟩
          · exact ⟨List.Subset.refl _, List.subset_cons_self x t,
              List.Subset.refl _, List.Subset.refl _⟩
  | SELL =>
      cases ask with
      | nil => exact ⟨List.Subset.refl _, List.Subset.refl _,
          List.Subset.refl _, List.Subset.refl _⟩
      | cons x t =>
          simp only [hmDel]
          split_ifs with hb hs
          · exact ⟨List.subset_cons_self x t, List.Subset.refl _,
              (List.filter_sublist bd).subset, List.Subset.refl _⟩
          · exact ⟨List.subset_cons_self x t, List.Subset.refl _,
              List.Subset.refl _, (List.filter_sublist sd).subset⟩
          · exact ⟨List.subset_cons_self x t, List.Subset.refl _,
              List.Subset.refl _, List.Subset.refl _⟩

theorem qtyNonneg_subset (bk bk2 : OrderBook)
    (hsub : bk2.ask ⊆ bk.ask ∧ bk2.bid ⊆ bk.bid ∧
      bk2.buy_dic ⊆ bk.buy_dic ∧ bk2.sell_dic ⊆ bk.sell_dic)
    (h : qtyNonneg bk) : qtyNonneg bk2 := by
  obtain ⟨h1, h2, h3, h4⟩ := h
  obtain ⟨s1, s2, s3, s4⟩ := hsub
  exact ⟨fun x hx => h1 x (s1 hx), fun x hx => h2 x (s2 hx),
    fun p hp => h3 p (s3 hp), fun p hp => h4 p (s4 hp)⟩

/-- Claim C4: in a matching-loop iteration with positive incoming remainder q
and popped resting order bo, the fill is min(q, bo.qty): the incoming
remainder becomes exactly q - fill, every surviving copy of the resting order
carries exactly bo.qty - fill, and — the book quantities being non-negative —
no quantity is ever observed negative afterwards. -/
theorem claim_C4_fill_min_conservation (bk : OrderBook) (bo : Order) (q : Rat)
    (hq : 0 < q) (hnn : qtyNonneg bk) :
    (mktStep bk bo q).2.2 = q - min q bo.qty ∧
    q - (mktStep bk bo q).2.2 = min q bo.qty ∧
    0 ≤ (mktStep bk bo q).2.2 ∧
    0 ≤ bo.qty - min q bo.qty ∧
    (∀ x ∈ (mktStep bk bo q).2.1.ask, x.id = bo.id → x.qty = bo.qty - min q bo.qty) ∧
    (∀ x ∈ (mktStep bk bo q).2.1.bid, x.id = bo.id → x.qty = bo.qty - min q bo.qty) ∧
    qtyNonneg (mktStep bk bo q).2.1 := by
  have hq1 : 0 ≤ q - min q bo.qty := sub_nonneg.mpr (min_le_left q bo.qty)
  have hbo1 : 0 ≤ bo.qty - min q bo.qty := sub_nonneg.mpr (min_le_right q bo.qty)
  have hnn1 : qtyNonneg (setQtyById bk bo.id (bo.qty - min q bo.qty)) :=
    setQtyById_nonneg bk bo.id (bo.qty - min q bo.qty) hbo1 hnn
  unfold mktStep
  by_cases hdel : bo.qty - min q bo.qty < fillEps
  · rw [if_pos hdel]
    rcases hdd : (setQtyById bk bo.id (bo.qty - min q bo.qty)).delete_order
        (bo.setQty (bo.qty - min q bo.qty)) with ⟨out, bk2⟩
    have hsub := delete_order_state_subset
      (setQtyById bk bo.id (bo.qty - min q bo.qty))
      (bo.setQty (bo.qty - min q bo.qty))
    rw [hdd] at hsub
    have hset2 : qtyNonneg bk2 := qtyNonneg_subset _ bk2 hsub hnn1
    have hmem : ∀ x ∈ bk2.ask, x.id = bo.id → x.qty = bo.qty - min q bo.qty :=
      fun x hx => map_setQty_id_qty bo.id (bo.qty - min q bo.qty) bk.ask x (hsub.1 hx)
    have hmem2 : ∀ x ∈ bk2.bid, x.id = bo.id → x.qty = bo.qty - min q bo.qty :=
      fun x hx => map_setQty_id_qty bo.id (bo.qty - min q bo.qty) bk.bid x (hsub.2.1 hx)
    cases out with
    | ok u =>
        refine ⟨rfl, by ring, hq1, hbo1, hmem, hmem2, hset2⟩
    | error e =>
        refine ⟨rfl, by ring, hq1, hbo1, hmem, hmem2, hset2⟩
  · rw [if_neg hdel]
    refine ⟨rfl, by ring, hq1, hbo1,
      fun x hx => map_setQty_id_qty bo.id (bo.qty - min q bo.qty) bk.ask x hx,
      fun x hx => map_setQty_id_qty bo.id (bo.qty - min q bo.qty) bk.bid x hx,
      hnn1⟩

/-- Claim C4 witness: one fill step of an incoming quantity 1 against the
resting SELL(price=5, qty=2) book conserves quantities and keeps every stored
quantity non-negative. -/
theorem claim_C4_fill_min_conservation_witness :
    (mktStep c1Book c1Sell 1).2.2 = 1 - min 1 c1Sell.qty ∧
    0 ≤ (mktStep c1Book c1Sell 1).2.2 ∧
    qtyNonneg (mktStep c1Book c1Sell 1).2.1 := by
  have h := claim_C4_fill_min_conservation c1Book c1Sell 1 (by norm_num)
    (by unfold qtyNonneg; with_unfolding_all decide)
  exact ⟨h.1, h.2.2.1, h.2.2.2.2.2.2⟩

/-! Matching-loop unfolding lemmas and partial-fill priority (Claim C5). -/

theorem mktLoop_zero (side : OrderSide) (bk : OrderBook) (q : Rat) :
    mktLoop 0 side bk q = (Except.error BookError.fuelExhausted, bk, q) := rfl

theorem mktLoop_succ (fuel : Nat) (side : OrderSide) (bk : OrderBook) (q : Rat) :
    mktLoop (fuel + 1) side bk q =
      (if 0 < q then
        match (bk.pop side).1 with
        | none => (Except.error BookError.attributeError, bk, q)
        | some bo =>
          match mktStep bk bo q with
          | (Except.ok _, bk1, q1) => mktLoop fuel side bk1 q1
          | (Except.error e, bk1, q1) => (Except.error e, bk1, q1)
      else (Except.ok (), bk, q)) := rfl

theorem map_setQty_untouched (i : Nat) (q : Rat) (l : List Order)
    (h : ∀ x ∈ l, x.id ≠ i) :
    l.map (fun o => if o.id = i then o.setQty q else o) = l := by
  induction l with
  | nil => rfl
  | cons a l ih =>
      rw [List.map_cons, if_neg (h a (List.mem_cons_self a l)),
        ih (fun x hx => h x (List.mem_cons_of_mem a hx))]

/-- Claim C5: a resting order that survives a partial fill by a market order
of either side keeps its position at the head of its sorted sequence with
exactly its reduced quantity — it is not re-sorted or re-queued — while the
worse-priority rest of that sequence and the whole opposite side are
untouched, and the incoming order finishes fully filled.  The last conjunct
states the same in-place property for the surviving resting head of an
arbitrary matching-loop iteration, whatever incoming remainder q that
iteration carries. -/
theorem claim_C5_partial_fill_in_place (bk : OrderBook) (o bo : Order)
    (rest : List Order)
    (htype : o.type_ = OrderType.MARKET) (hqpos : 0 < o.qty)
    (hsurv : o.qty + fillEps ≤ bo.qty)
    (hrest : ∀ x ∈ rest, x.id ≠ bo.id) :
    (o.side = OrderSide.BUY → bk.ask = bo :: rest →
      (∀ x ∈ bk.bid, x.id ≠ bo.id) →
      (bk._process_order o).1 = Except.ok () ∧
      (bk._process_order o).2.2 = 0 ∧
      (bk._process_order o).2.1.ask = bo.setQty (bo.qty - o.qty) :: rest ∧
      (bk._process_order o).2.1.bid = bk.bid) ∧
    (o.side = OrderSide.SELL → bk.bid = bo :: rest →
      (∀ x ∈ bk.ask, x.id ≠ bo.id) →
      (bk._process_order o).1 = Except.ok () ∧
      (bk._process_order o).2.2 = 0 ∧
      (bk._process_order o).2.1.bid = bo.setQty (bo.qty - o.qty) :: rest ∧
      (bk._process_order o).2.1.ask = bk.ask) ∧
    (∀ q : Rat, ¬(bo.qty - min q bo.qty < fillEps) →
      (bk.ask = bo :: rest → (∀ x ∈ bk.bid, x.id ≠ bo.id) →
        (mktStep bk bo q).2.1.ask =
          bo.setQty (bo.qty - min q bo.qty) :: rest ∧
        (mktStep bk bo q).2.1.bid = bk.bid) ∧
      (bk.bid = bo :: rest → (∀ x ∈ bk.ask, x.id ≠ bo.id) →
        (mktStep bk bo q).2.1.bid =
          bo.setQty (bo.qty - min q bo.qty) :: rest ∧
        (mktStep bk bo q).2.1.ask = bk.ask)) := by
  have heps : (0 : Rat) < fillEps := by decide
  have hle : o.qty ≤ bo.qty :=
    le_trans (le_add_of_nonneg_right (le_of_lt heps)) hsurv
  have hmin : min o.qty bo.qty = o.qty := min_eq_left hle
  have hnd : ¬(bo.qty - o.qty < fillEps) := by
    intro hlt
    have hx : bo.qty < o.qty + fillEps := by linarith
    exact absurd hsurv (not_le.mpr hx)
  have hstep : mktStep bk bo o.qty =
      (Except.ok (), setQtyById bk bo.id (bo.qty - o.qty), 0) := by
    unfold mktStep
    simp only [hmin]
    rw [if_neg hnd, sub_self]
  refine ⟨?_, ?_, ?_⟩
  · intro hside hask hbid
    have key : bk._process_order o =
        (Except.ok (), setQtyById bk bo.id (bo.qty - o.qty), 0) := by
      simp only [OrderBook._process_order, htype]
      simp only [OrderBook._process_mkt, hside]
      simp only [hask, List.length_cons]
      rw [if_neg (Nat.succ_ne_zero rest.length)]
      have hf : rest.length + 1 + bk.bid.length + 2 =
          (rest.length + 1 + bk.bid.length + 1) + 1 := rfl
      rw [hf, mktLoop_succ, if_pos hqpos]
      simp only [OrderBook.pop, hask, List.head?_cons]
      simp only [hstep]
      have hf2 : rest.length + 1 + bk.bid.length + 1 =
          (rest.length + 1 + bk.bid.length) + 1 := rfl
      rw [hf2, mktLoop_succ, if_neg (lt_irrefl (0 : Rat))]
    refine ⟨by rw [key], by rw [key], ?_, ?_⟩
    · rw [key]
      show (setQtyById bk bo.id (bo.qty - o.qty)).ask = _
      unfold setQtyById
      rw [hask, List.map_cons, if_pos rfl,
        map_setQty_untouched bo.id (bo.qty - o.qty) rest hrest]
    · rw [key]
      show (setQtyById bk bo.id (bo.qty - o.qty)).bid = _
      unfold setQtyById
      rw [map_setQty_untouched bo.id (bo.qty - o.qty) bk.bid hbid]
  · intro hside hbid hask
    have key : bk._process_order o =
        (Except.ok (), setQtyById bk bo.id (bo.qty - o.qty), 0) := by
      simp only [OrderBook._process_order, htype]
      simp only [OrderBook._process_mkt, hside]
      simp only [hbid, List.length_cons]
      rw [if_neg (Nat.succ_ne_zero rest.length)]
      have hf : bk.ask.length + (rest.length + 1) + 2 =
          (bk.ask.length + (rest.length + 1) + 1) + 1 := rfl
      rw [hf, mktLoop_succ, if_pos hqpos]
      simp only [OrderBook.pop, hbid, List.head?_cons]
      simp only [hstep]
      have hf2 : bk.ask.length + (rest.length + 1) + 1 =
          (bk.ask.length + (rest.length + 1)) + 1 := rfl
      rw [hf2, mktLoop_succ, if_neg (lt_irrefl (0 : Rat))]
    refine ⟨by rw [key], by rw [key], ?_, ?_⟩
    · rw [key]
      show (setQtyById bk bo.id (bo.qty - o.qty)).bid = _
      unfold setQtyById
      rw [hbid, List.map_cons, if_pos rfl,
        map_setQty_untouched bo.id (bo.qty - o.qty) rest hrest]
    · rw [key]
      show (setQtyById bk bo.id (bo.qty - o.qty)).ask = _
      unfold setQtyById
      rw [map_setQty_untouched bo.id (bo.qty - o.qty) bk.ask hask]
  · intro q hsq
    have hstep2 : (mktStep bk bo q).2.1 =
        setQtyById bk bo.id (bo.qty - min q bo.qty) := by
      unfold mktStep
      simp only []
      rw [if_neg hsq]
    refine ⟨?_, ?_⟩
    · intro hask hbid
      rw [hstep2]
      constructor
      · show (setQtyById bk bo.id (bo.qty - min q bo.qty)).ask = _
        unfold setQtyById
        rw [hask, List.map_cons, if_pos rfl,
          map_setQty_untouched bo.id (bo.qty - min q bo.qty) rest hrest]
      · show (setQtyById bk bo.id (bo.qty - min q bo.qty)).bid = _
        unfold setQtyById
        rw [map_setQty_untouched bo.id (bo.qty - min q bo.qty) bk.bid hbid]
    · intro hbid hask
      rw [hstep2]
      constructor
      · show (setQtyById bk bo.id (bo.qty - min q bo.qty)).bid = _
        unfold setQtyById
        rw [hbid, List.map_cons, if_pos rfl,
          map_setQty_untouched bo.id (bo.qty - min q bo.qty) rest hrest]
      · show (setQtyById bk bo.id (bo.qty - min q bo.qty)).ask = _
        unfold setQtyById
        rw [map_setQty_untouched bo.id (bo.qty - min q bo.qty) bk.ask hask]

/-- Claim C5 witness: Example 2 — against resting SELL(9, qty 4) and
SELL(9.5, qty 2), a MARKET BUY(qty 3) leaves the price-9 order resting at
the head with qty 1 and the price-9.5 order untouched behind it; mirrored,
a MARKET SELL(qty 3) against resting BUY(10, qty 4) and BUY(8, qty 2)
leaves the price-10 order at the bid head with qty 1 and the price-8 order
untouched. -/
theorem claim_C5_partial_fill_in_place_witness :
    (ex2Book._process_order ex2Mkt).1 = Except.ok () ∧
    (ex2Book._process_order ex2Mkt).2.2 = 0 ∧
    (ex2Book._process_order ex2Mkt).2.1.ask =
      ex2Sell1.setQty (ex2Sell1.qty - ex2Mkt.qty) :: [ex2Sell2] ∧
    (ex2Book._process_order ex2Mkt).2.1.bid = ex2Book.bid ∧
    (ex5Book._process_order ex5Mkt).1 = Except.ok () ∧
    (ex5Book._process_order ex5Mkt).2.2 = 0 ∧
    (ex5Book._process_order ex5Mkt).2.1.bid =
      ex5Buy1.setQty (ex5Buy1.qty - ex5Mkt.qty) :: [ex5Buy2] ∧
    (ex5Book._process_order ex5Mkt).2.1.ask = ex5Book.ask := by
  have h1 := (claim_C5_partial_fill_in_place ex2Book ex2Mkt ex2Sell1
    [ex2Sell2] rfl (by decide) (by with_unfolding_all decide)
    (by with_unfolding_all decide)).1 rfl (by with_unfolding_all decide)
    (by with_unfolding_all decide)
  have h2 := (claim_C5_partial_fill_in_place ex5Book ex5Mkt ex5Buy1
    [ex5Buy2] rfl (by decide) (by with_unfolding_all decide)
    (by with_unfolding_all decide)).2.1 rfl (by with_unfolding_all decide)
    (by with_unfolding_all decide)
  exact ⟨h1.1, h1.2.1, h1.2.2.1, h1.2.2.2, h2.1, h2.2.1, h2.2.2.1, h2.2.2.2⟩

/-! Claim C1: over-sized market order against thin liquidity. -/

/-- Claim C1 (code bug at Example 5): a MARKET BUY(qty=5) against the lone
resting SELL(price=5, qty=2) fills 2 — the incoming remainder ends at 3 — and
fully removes the consumed resting order from the ask sequence and from the
index (the final state is the empty book), but the run then terminates with
the AttributeError of dereferencing the empty pop result, not with the
MissingOrder no-liquidity condition the claim names. -/
theorem claim_C1_overfill_crashes_without_noliquidity :
    c1Book._process_order c1Mkt =
      (Except.error BookError.attributeError, OrderBook.empty, 3) ∧
    (c1Book._process_order c1Mkt).1 ≠
      Except.error (BookError.missingOrder noFillMsg) := by
  with_unfolding_all decide


/-! Fuel sufficiency: the while loop of _process_mkt, run with the fuel the
entry point supplies, never returns the fuelExhausted sentinel — each
iteration either terminates the loop or shrinks the resting sequences. -/

theorem delete_order_cases (bk : OrderBook) (o : Order) :
    ((bk.delete_order o).1 = Except.ok () ∧
      (bk.delete_order o).2.ask.length + (bk.delete_order o).2.bid.length + 1 =
        bk.ask.length + bk.bid.length) ∨
    ((bk.delete_order o).1 = Except.error BookError.indexError ∧
      (bk.delete_order o).2 = bk) ∨
    ((bk.delete_order o).1 = Except.error (BookError.keyError o.id) ∧
      (bk.delete_order o).2.ask.length + (bk.delete_order o).2.bid.length + 1 =
        bk.ask.length + bk.bid.length) := by
  obtain ⟨ask, bid, bd, sd⟩ := bk
  unfold OrderBook.delete_order
  cases o.side with
  | BUY =>
      cases bid with
      | nil => exact Or.inr (Or.inl ⟨rfl, rfl⟩)
      | cons x t =>
          simp only [hmDel]
          split_ifs
          · exact Or.inl ⟨rfl, by simp only [List.length_cons]; omega⟩
          · exact Or.inl ⟨rfl, by simp only [List.length_cons]; omega⟩
          · exact Or.inr (Or.inr ⟨rfl, by simp only [List.length_cons]; omega⟩)
  | SELL =>
      cases ask with
      | nil => exact Or.inr (Or.inl ⟨rfl, rfl⟩)
      | cons x t =>
          simp only [hmDel]
          split_ifs
          · exact Or.inl ⟨rfl, by simp only [List.length_cons]; omega⟩
          · exact Or.inl ⟨rfl, by simp only [List.length_cons]; omega⟩
          · exact Or.inr (Or.inr ⟨rfl, by simp only [List.length_cons]; omega⟩)

theorem mktStep_cases (bk : OrderBook) (bo : Order) (q : Rat) :
    ((mktStep bk bo q).1 = Except.ok () ∧
      (mktStep bk bo q).2.1.ask.length + (mktStep bk bo q).2.1.bid.length + 1 =
        bk.ask.length + bk.bid.length) ∨
    ((mktStep bk bo q).1 = Except.ok () ∧ (mktStep bk bo q).2.2 ≤ 0 ∧
      (mktStep bk bo q).2.1.ask.length + (mktStep bk bo q).2.1.bid.length =
        bk.ask.length + bk.bid.length) ∨
    (∃ e : BookError, (mktStep bk bo q).1 = Except.error e ∧
      e ≠ BookError.fuelExhausted) := by
  unfold mktStep
  simp only []
  by_cases hdel : bo.qty - min q bo.qty < fillEps
  · rw [if_pos hdel]
    rcases hd : (setQtyById bk bo.id (bo.qty - min q bo.qty)).delete_order
        (bo.setQty (bo.qty - min q bo.qty)) with ⟨out, bk2⟩
    have hdc := delete_order_cases
      (setQtyById bk bo.id (bo.qty - min q bo.qty))
      (bo.setQty (bo.qty - min q bo.qty))
    rw [hd] at hdc
    have hlen : (setQtyById bk bo.id (bo.qty - min q bo.qty)).ask.length +
        (setQtyById bk bo.id (bo.qty - min q bo.qty)).bid.length =
        bk.ask.length + bk.bid.length := by
      simp [setQtyById]
    rcases hdc with ⟨h1, h2⟩ | ⟨h1, h2⟩ | ⟨h1, h2⟩
    · cases out with
      | ok u =>
          left
          have h2x : bk2.ask.length + bk2.bid.length + 1 =
              (setQtyById bk bo.id (bo.qty - min q bo.qty)).ask.length +
              (setQtyById bk bo.id (bo.qty - min q bo.qty)).bid.length := h2
          refine ⟨rfl, ?_⟩
          show bk2.ask.length + bk2.bid.length + 1 = bk.ask.length + bk.bid.length
          omega
      | error e2 => exact Except.noConfusion h1
    · cases out with
      | ok u => exact Except.noConfusion h1
      | error e2 =>
          right; right
          refine ⟨e2, rfl, ?_⟩
          have he : e2 = BookError.indexError := by injection h1
          rw [he]
          intro hc
          exact BookError.noConfusion hc
    · cases out with
      | ok u => exact Except.noConfusion h1
      | error e2 =>
          right; right
          refine ⟨e2, rfl, ?_⟩
          have he : e2 = BookError.keyError (bo.setQty (bo.qty - min q bo.qty)).id := by
            injection h1
          rw [he]
          intro hc
          exact BookError.noConfusion hc
  · rw [if_neg hdel]
    right; left
    refine ⟨rfl, ?_, by simp [setQtyById]⟩
    rcases le_total q bo.qty with hle | hle
    · rw [min_eq_left hle, sub_self]
    · rw [min_eq_right hle, sub_self] at hdel
      exact absurd (by decide : (0 : Rat) < fillEps) (fun hx => hdel hx)

theorem mktLoop_fuel_sufficient :
    ∀ fuel : Nat, ∀ side : OrderSide, ∀ bk : OrderBook, ∀ q : Rat,
      bk.ask.length + bk.bid.length + 2 ≤ fuel →
      (mktLoop fuel side bk q).1 ≠ Except.error BookError.fuelExhausted := by
  intro fuel
  induction fuel with
  | zero =>
      intro side bk q hf
      omega
  | succ n ih =>
      intro side bk q hf
      rw [mktLoop_succ]
      by_cases hq : 0 < q
      · rw [if_pos hq]
        cases hpop : (bk.pop side).1 with
        | none => simp
        | some bo =>
            have hsc := mktStep_cases bk bo q
            rcases hstep : mktStep bk bo q with ⟨out, bk1, q1⟩
            rw [hstep] at hsc
            simp only [hstep]
            cases out with
            | ok u =>
                show (mktLoop n side bk1 q1).1 ≠ Except.error BookError.fuelExhausted
                rcases hsc with ⟨h1, h2⟩ | ⟨h1, h2, h3⟩ | ⟨e, h1, h2⟩
                · have h2x : bk1.ask.length + bk1.bid.length + 1 =
                      bk.ask.length + bk.bid.length := h2
                  exact ih side bk1 q1 (by omega)
                · have h2x : q1 ≤ 0 := h2
                  have h3x : bk1.ask.length + bk1.bid.length =
                      bk.ask.length + bk.bid.length := h3
                  have hn : 1 ≤ n := by omega
                  rcases n with _ | m
                  · omega
                  · rw [mktLoop_succ, if_neg (not_lt.mpr h2x)]
                    simp
                · exact Except.noConfusion h1
            | error e2 =>
                show Except.error e2 ≠ Except.error BookError.fuelExhausted
                intro hc
                have hc2 : e2 = BookError.fuelExhausted := by injection hc
                rcases hsc with ⟨h1, h2⟩ | ⟨h1, h2, h3⟩ | ⟨e, h1, h2⟩
                · exact Except.noConfusion h1
                · exact Except.noConfusion h1
                · have he : e = e2 := by injection h1 with hx; exact hx.symm
                  rw [he, hc2] at h2
                  exact h2 rfl
      · rw [if_neg hq]
        simp
